import Mathlib

/- Verification development for the receipts-npm text receipt generator
   (dist/receipt.js).  JS numbers are idealised as exact rationals extended
   with NaN and the two infinities (IEEE rounding is out of scope; every
   arithmetic step of the program is modelled exactly); JS strings are
   modelled as lists of characters. -/

set_option maxRecDepth 4000

namespace Receipts

/-- JS strings are modelled as lists of characters. -/
abbrev Str := List Char

/-- Whitespace test backing the model of JS String.prototype.trim: the
ECMA-262 WhiteSpace and LineTerminator sets — tab, LF, VT, FF, CR, space,
NBSP, the Unicode space separators (U+1680, U+2000 to U+200A, U+202F,
U+205F, U+3000), LS, PS and ZWNBSP. -/
def isWs (c : Char) : Bool :=
  c = ' ' || c = '\t' || c = '\n' || c = '\r'
    || c.val = 0x000B || c.val = 0x000C || c.val = 0x00A0 || c.val = 0x1680
    || (0x2000 ≤ c.val && c.val ≤ 0x200A)
    || c.val = 0x2028 || c.val = 0x2029 || c.val = 0x202F || c.val = 0x205F
    || c.val = 0x3000 || c.val = 0xFEFF

/-- Model of JS String.prototype.trim: strip whitespace from both ends. -/
def trimS (s : Str) : Str := ((s.dropWhile isWs).reverse.dropWhile isWs).reverse

/-- Model of JS String.prototype.split on a single-space separator
(receipt.js line 43: text.split(' ')). -/
def splitSp : Str → List Str
  | [] => [[]]
  | c :: rest =>
    match splitSp rest with
    | [] => if c = ' ' then [[], []] else [[c]]
    | g :: gs => if c = ' ' then [] :: g :: gs else (c :: g) :: gs

/-- Model of JS String.prototype.padStart with spaces; the target width is an
integer (JS clamps negative targets to no padding). -/
def padStartZ (s : Str) (n : ℤ) : Str :=
  List.replicate (n - (s.length : ℤ)).toNat ' ' ++ s

/-- Model of JS String.prototype.padEnd with spaces; the target width is an
integer (JS clamps negative targets to no padding). -/
def padEndZ (s : Str) (n : ℤ) : Str :=
  s ++ List.replicate (n - (s.length : ℤ)).toNat ' '

/-- JS numbers, idealised: NaN, the two infinities, or an exact rational. -/
inductive JNum
  | nan
  | inf
  | ninf
  | fin (q : ℚ)
deriving DecidableEq

/-- Model of the JS global isNaN on a number. -/
def jisNaN : JNum → Bool
  | .nan => true
  | _ => false

/-- Model of the JS comparison a < b (false whenever NaN is involved). -/
def jlt : JNum → JNum → Bool
  | .nan, _ => false
  | _, .nan => false
  | .ninf, .ninf => false
  | .ninf, _ => true
  | _, .ninf => false
  | .inf, _ => false
  | .fin _, .inf => true
  | .fin a, .fin b => decide (a < b)

/-- Model of the JS comparison a > b. -/
def jgt (a b : JNum) : Bool := jlt b a

/-- Model of JS addition on numbers (exact on finite values). -/
def jadd : JNum → JNum → JNum
  | .nan, _ => .nan
  | _, .nan => .nan
  | .inf, .ninf => .nan
  | .ninf, .inf => .nan
  | .inf, _ => .inf
  | _, .inf => .inf
  | .ninf, _ => .ninf
  | _, .ninf => .ninf
  | .fin a, .fin b => .fin (a + b)

/-- Model of JS unary negation on numbers. -/
def jneg : JNum → JNum
  | .nan => .nan
  | .inf => .ninf
  | .ninf => .inf
  | .fin a => .fin (-a)

/-- Model of JS subtraction on numbers. -/
def jsub (a b : JNum) : JNum := jadd a (jneg b)

/-- Model of JS multiplication on numbers (exact on finite values;
infinity times zero is NaN, as in IEEE). -/
def jmul : JNum → JNum → JNum
  | .nan, _ => .nan
  | _, .nan => .nan
  | .inf, .inf => .inf
  | .inf, .ninf => .ninf
  | .ninf, .inf => .ninf
  | .ninf, .ninf => .inf
  | .inf, .fin b => if 0 < b then .inf else if b < 0 then .ninf else .nan
  | .fin a, .inf => if 0 < a then .inf else if a < 0 then .ninf else .nan
  | .ninf, .fin b => if 0 < b then .ninf else if b < 0 then .inf else .nan
  | .fin a, .ninf => if 0 < a then .ninf else if a < 0 then .inf else .nan
  | .fin a, .fin b => .fin (a * b)

/-- A JS value that may sit in an item's quantity or price field: a number,
undefined, or null (the non-numeric cases the spec talks about). -/
inductive JVal
  | num (x : JNum)
  | undef
  | jnull
deriving DecidableEq

/-- Model of JS parseFloat on this value domain: a number parses back to
itself (its decimal printing round-trips), undefined and null to NaN. -/
def jsParseFloat : JVal → JNum
  | .num x => x
  | .undef => .nan
  | .jnull => .nan

/-- Model of JS ToNumber as applied by the * operator (null converts to 0). -/
def jsToNumber : JVal → JNum
  | .num x => x
  | .undef => .nan
  | .jnull => .fin 0

/-- Decimal digit string of a natural number. -/
def natDigitsS (n : ℕ) : Str := Nat.toDigits 10 n

/-- Decimal digits of a rational in [0,1), produced digit by digit; the fuel
bound 1100 covers every terminating expansion a JS double can print. -/
def fracDigitsS : ℕ → ℚ → Str
  | 0, _ => []
  | fuel + 1, q =>
    if q = 0 then []
    else Nat.digitChar (⌊q * 10⌋).toNat :: fracDigitsS fuel (q * 10 - (⌊q * 10⌋ : ℚ))

/-- Exact decimal printing of a non-negative rational. -/
def ratAbsToString (q : ℚ) : Str :=
  natDigitsS (⌊q⌋).toNat ++ (if q.den = 1 then [] else '.' :: fracDigitsS 1100 (q - (⌊q⌋ : ℚ)))

/-- Model of JS Number.prototype.toString for finite values. -/
def ratToString (q : ℚ) : Str :=
  if q < 0 then '-' :: ratAbsToString (-q) else ratAbsToString q

/-- Model of JS Number.prototype.toString. -/
def numToString : JNum → Str
  | .nan => "NaN".data
  | .inf => "Infinity".data
  | .ninf => "-Infinity".data
  | .fin q => ratToString q

/-- toFixed(2) on a non-negative rational: round half up to an integer count
of hundredths, then print it with exactly two fraction digits. -/
def fixed2Abs (q : ℚ) : Str :=
  let n : ℕ := (⌊q * 100 + 1 / 2⌋).toNat
  natDigitsS (n / 100) ++ '.' :: Nat.digitChar (n / 10 % 10) :: [Nat.digitChar (n % 10)]

/-- Model of JS Number.prototype.toFixed(2). -/
def jToFixed2 : JNum → Str
  | .nan => "NaN".data
  | .inf => "Infinity".data
  | .ninf => "-Infinity".data
  | .fin q => if q < 0 then '-' :: fixed2Abs (-q) else fixed2Abs q

/-- Model of value.toString() as called on item.quantity (receipt.js line 99):
none models the TypeError JS raises on undefined and null. -/
def jsToStringE : JVal → Option Str
  | .num x => some (numToString x)
  | .undef => none
  | .jnull => none

/-- Caller-supplied item (name, quantity, price). -/
structure ItemInput where
  name : Str
  quantity : JVal
  price : JVal
deriving DecidableEq

/-- Derived line item: the input fields plus the computed total. -/
structure LineItem where
  name : Str
  quantity : JVal
  price : JVal
  total : JNum
deriving DecidableEq

/-- The validity test of calculateLineItems (receipt.js line 29):
isNaN(parseFloat(quantity)) or isNaN(parseFloat(price)) or either negative. -/
def invalidItem (item : ItemInput) : Bool :=
  jisNaN (jsParseFloat item.quantity) || jisNaN (jsParseFloat item.price) ||
    jlt (jsParseFloat item.quantity) (.fin 0) || jlt (jsParseFloat item.price) (.fin 0)

/-- One step of calculateLineItems (receipt.js lines 24-36).  The Bool records
whether the console.warn diagnostic fired.  Note the valid branch keeps the
original quantity and price fields and multiplies item.quantity by item.price
under ToNumber coercion, exactly as the source does. -/
def calcItem (item : ItemInput) : LineItem × Bool :=
  if invalidItem item then
    ({ name := item.name, quantity := .num (.fin 0), price := .num (.fin 0), total := .fin 0 },
     true)
  else
    ({ name := item.name, quantity := item.quantity, price := item.price,
       total := jmul (jsToNumber item.quantity) (jsToNumber item.price) },
     false)

/-- calculateLineItems (receipt.js lines 23-39): per-item totals and the
subtotal reduced left to right from 0. -/
def calculateLineItems (items : List ItemInput) : List LineItem × JNum :=
  let lineItems := items.map fun item => (calcItem item).1
  (lineItems, lineItems.foldl (fun sum item => jadd sum item.total) (.fin 0))

/-- The discount kind: percentage or fixed. -/
inductive DiscountType
  | percentage
  | fixed
deriving DecidableEq

/-- Discount specification { type, value }. -/
structure Discount where
  type : DiscountType
  value : ℚ
deriving DecidableEq

/-- All derived totals of one render call. -/
structure Totals where
  lineItems : List LineItem
  subtotal : JNum
  discountAmount : JNum
  subtotalAfterDiscount : JNum
  tax : JNum
  vat : JNum
  total : JNum
deriving DecidableEq

/-- The totals computation of generateReceipt (receipt.js lines 73-87). -/
def computeTotals (items : List ItemInput) (discount : Option Discount)
    (taxRate vatRate : ℚ) : Totals :=
  let p := calculateLineItems items
  let subtotal := p.2
  let discountAmount : JNum :=
    match discount with
    | some d =>
      match d.type with
      | .percentage => jmul subtotal (.fin (d.value / 100))
      | .fixed => .fin d.value
    | none => .fin 0
  let subtotalAfterDiscount := jsub subtotal discountAmount
  let tax := jmul subtotalAfterDiscount (.fin taxRate)
  let vat := jmul subtotalAfterDiscount (.fin vatRate)
  let total := jadd (jadd subtotalAfterDiscount tax) vat
  ⟨p.1, subtotal, discountAmount, subtotalAfterDiscount, tax, vat, total⟩

/-- Full receipt input (defaults as destructured in receipt.js line 72). -/
structure ReceiptData where
  storeName : Str := "YOUR STORE NAME".data
  companyAddress : Option Str := none
  items : List ItemInput
  taxRate : ℚ := 0
  vatRate : ℚ := 0
  discount : Option Discount := none
  currency : Str := "$".data

/-- Loop body of wrapText (receipt.js lines 46-54): currentLine carries its
trailing space exactly as in the source, and flushed lines are trimmed. -/
def wrapGo (maxLength : ℤ) : List Str → Str → List Str
  | [], currentLine => [trimS currentLine]
  | w :: ws, currentLine =>
    if ((currentLine ++ w).length : ℤ) > maxLength ∧ currentLine ≠ [] then
      trimS currentLine :: wrapGo maxLength ws (w ++ [' '])
    else
      wrapGo maxLength ws (currentLine ++ w ++ [' '])

/-- wrapText (receipt.js lines 42-56). -/
def wrapText (text : Str) (maxLength : ℤ) : List Str :=
  wrapGo maxLength (splitSp text) []

/-- Modelled from the spec: the greedy word-wrap as worded in section 4.1 of
the specification — accumulate words into the current line while the width of
currentLine + " " + nextWord stays within the budget, otherwise flush the
current line and start a new one with that word.  Stated for comparison with
the wrapText of the source. -/
def greedyGo (budget : ℤ) : List Str → Str → List Str
  | [], currentLine => [currentLine]
  | w :: ws, currentLine =>
    if currentLine = [] then greedyGo budget ws w
    else if ((currentLine ++ ' ' :: w).length : ℤ) ≤ budget then
      greedyGo budget ws (currentLine ++ ' ' :: w)
    else currentLine :: greedyGo budget ws w

/-- Modelled from the spec: entry point of the greedy word-wrap of section
4.1, on the space-separated words of the text. -/
def greedyWrap (text : Str) (budget : ℤ) : List Str :=
  greedyGo budget (splitSp text) []

/-- The rows the text renderer emits for one line item (receipt.js lines
98-108): none models the TypeError paths (toString on undefined or null,
indexing an empty wrap result). -/
def itemRows? (currency : Str) (item : LineItem) : Option (List Str) :=
  match jsToStringE item.quantity with
  | none => none
  | some qty =>
    match wrapText item.name
        (32 - (qty.length : ℤ) - ((currency ++ jToFixed2 item.total).length : ℤ) - 2) with
    | [] => none
    | l0 :: ls =>
      some ((padEndZ qty 3
          ++ ' ' :: padEndZ l0
              (32 - (qty.length : ℤ) - ((currency ++ jToFixed2 item.total).length : ℤ) - 2)
          ++ ' ' :: padStartZ (currency ++ jToFixed2 item.total) 7)
        :: ls.map fun l => ' ' :: ' ' :: ' ' :: ' ' :: padEndZ l
            (32 - (qty.length : ℤ) - ((currency ++ jToFixed2 item.total).length : ℤ) - 2 + 3))

/-- Option-valued map over a list, failing as soon as one element fails
(the renderer's item loop). -/
def mapMO (f : LineItem → Option (List Str)) : List LineItem → Option (List (List Str))
  | [] => some []
  | x :: xs =>
    match f x, mapMO f xs with
    | some r, some rs => some (r :: rs)
    | _, _ => none

/-- All item rows of the receipt, in item order. -/
def itemSection? (currency : Str) (lineItems : List LineItem) : Option (List Str) :=
  (mapMO (itemRows? currency) lineItems).map List.flatten

/-- Number of wrapped name lines the renderer produces for one line item. -/
def nameLineCount (currency : Str) (item : LineItem) : ℕ :=
  match jsToStringE item.quantity with
  | none => 0
  | some qty =>
    (wrapText item.name
      (32 - (qty.length : ℤ) - (((currency ++ jToFixed2 item.total).length : ℤ)) - 2)).length

/-- The 32-character double rule (receipt.js line 89). -/
def ruleEq : Str := "================================".data

/-- The 32-character dashed rule (receipt.js line 96). -/
def ruleDash : Str := "--------------------------------".data

/-- Centering pad of the header (receipt.js line 90): padStart to
15 + length / 2, the fractional target truncated as JS ToLength does. -/
def centerPad (s : Str) : Str := padStartZ s (15 + (s.length : ℤ) / 2)

/-- Header block of the text receipt (receipt.js lines 89-96). -/
def headerLines (data : ReceiptData) : List Str :=
  [ruleEq, centerPad data.storeName]
    ++ (match data.companyAddress with
        | some a => [centerPad a]
        | none => [])
    ++ [ruleEq, [], "QTY  ITEM                  TOTAL".data, ruleDash]

/-- The Subtotal summary row (receipt.js line 112). -/
def subtotalLine (currency : Str) (subtotal : JNum) : Str :=
  "Subtotal: ".data ++ padStartZ (currency ++ jToFixed2 subtotal) 22

/-- The discount label (receipt.js line 114). -/
def discountLabel (d : Discount) : Str :=
  match d.type with
  | .percentage => "Discount (".data ++ ratToString d.value ++ "%)".data
  | .fixed => "Discount".data

/-- The Discount summary row (receipt.js line 115): the amount is shown
negative and right-aligned to the 29-column budget less the label width. -/
def discountLine (currency : Str) (d : Discount) (discountAmount : JNum) : Str :=
  discountLabel d ++ ": ".data
    ++ padStartZ ('-' :: (currency ++ jToFixed2 discountAmount))
        (29 - ((discountLabel d).length : ℤ))

/-- The VAT summary row (receipt.js line 118). -/
def vatLine (currency : Str) (vatRate : ℚ) (vat : JNum) : Str :=
  "VAT (".data ++ jToFixed2 (.fin (vatRate * 100)) ++ "%): ".data
    ++ padStartZ (currency ++ jToFixed2 vat) 20

/-- The Tax summary row (receipt.js line 121). -/
def taxLine (currency : Str) (taxRate : ℚ) (tax : JNum) : Str :=
  "Tax (".data ++ jToFixed2 (.fin (taxRate * 100)) ++ "%): ".data
    ++ padStartZ (currency ++ jToFixed2 tax) 20

/-- The TOTAL row (receipt.js line 124). -/
def totalLine (currency : Str) (total : JNum) : Str :=
  "TOTAL: ".data ++ padStartZ (currency ++ jToFixed2 total) 25

/-- Summary block of the text receipt (receipt.js lines 112-122): Subtotal
always, then Discount only when the amount is positive, then VAT and Tax each
only when positive. -/
def summaryLines (currency : Str) (discount : Option Discount) (t : Totals)
    (taxRate vatRate : ℚ) : List Str :=
  [subtotalLine currency t.subtotal]
    ++ (if jgt t.discountAmount (.fin 0) then
          match discount with
          | some d => [discountLine currency d t.discountAmount]
          | none => []
        else [])
    ++ (if jgt t.vat (.fin 0) then [vatLine currency vatRate t.vat] else [])
    ++ (if jgt t.tax (.fin 0) then [taxLine currency taxRate t.tax] else [])

/-- Footer of the text receipt (receipt.js lines 123-127). -/
def footerLines (currency : Str) (total : JNum) : List Str :=
  [ruleDash, totalLine currency total, [], ruleEq,
   "   Thank you for your purchase!   ".data, ruleEq]

/-- generateReceipt (receipt.js lines 71-130) as its list of output lines;
none models the TypeError paths inside the item loop. -/
def generateReceiptLines? (data : ReceiptData) : Option (List Str) :=
  let t := computeTotals data.items data.discount data.taxRate data.vatRate
  match itemSection? data.currency t.lineItems with
  | none => none
  | some rows =>
    some (headerLines data ++ rows ++ [[], ruleDash]
      ++ summaryLines data.currency data.discount t data.taxRate data.vatRate
      ++ footerLines data.currency t.total)

/-- generateReceipt as the final string: every emitted line followed by a
newline, concatenated in order. -/
def generateReceipt? (data : ReceiptData) : Option Str :=
  (generateReceiptLines? data).map fun ls => (ls.map fun l => l ++ ['\n']).flatten

/-- A line item total is never strictly negative under the JS comparison,
because jlt is false on NaN and the factors were screened for sign. -/
lemma toNumber_nonneg (v : JVal) (h1 : jisNaN (jsParseFloat v) = false)
    (h2 : jlt (jsParseFloat v) (.fin 0) = false) :
    jlt (jsToNumber v) (.fin 0) = false := by
  cases v <;> simp_all [jsParseFloat, jsToNumber, jisNaN]

/-- Multiplication of two values that are not below zero is not below zero. -/
lemma jmul_nonneg (a b : JNum) (ha : jlt a (.fin 0) = false)
    (hb : jlt b (.fin 0) = false) : jlt (jmul a b) (.fin 0) = false := by
  cases a with
  | nan => cases b <;> rfl
  | inf =>
    cases b with
    | nan => rfl
    | inf => rfl
    | ninf => simp [jlt] at hb
    | fin q =>
      simp only [jlt, decide_eq_false_iff_not] at hb
      simp only [jmul]
      rcases lt_trichotomy 0 q with h | h | h
      · rw [if_pos h]; rfl
      · rw [if_neg (by rw [← h]; exact lt_irrefl 0), if_neg (by rw [← h]; exact lt_irrefl 0)]
        rfl
      · exact absurd h hb
  | ninf => simp [jlt] at ha
  | fin q =>
    cases b with
    | nan => rfl
    | inf =>
      simp only [jlt, decide_eq_false_iff_not] at ha
      simp only [jmul]
      rcases lt_trichotomy 0 q with h | h | h
      · rw [if_pos h]; rfl
      · rw [if_neg (by rw [← h]; exact lt_irrefl 0), if_neg (by rw [← h]; exact lt_irrefl 0)]
        rfl
      · exact absurd h ha
    | ninf => simp [jlt] at hb
    | fin r =>
      simp only [jlt, decide_eq_false_iff_not] at ha hb
      simp only [jmul, jlt, decide_eq_false_iff_not]
      exact not_lt.mpr (mul_nonneg (not_lt.mp ha) (not_lt.mp hb))

/-- Addition of two values that are not below zero is not below zero. -/
lemma jadd_nonneg (a b : JNum) (ha : jlt a (.fin 0) = false)
    (hb : jlt b (.fin 0) = false) : jlt (jadd a b) (.fin 0) = false := by
  cases a with
  | nan => cases b <;> rfl
  | inf =>
    cases b with
    | nan => rfl
    | inf => rfl
    | ninf => simp [jlt] at hb
    | fin q => rfl
  | ninf => simp [jlt] at ha
  | fin q =>
    cases b with
    | nan => rfl
    | inf => rfl
    | ninf => simp [jlt] at hb
    | fin r =>
      simp only [jlt, decide_eq_false_iff_not] at ha hb
      simp only [jadd, jlt, decide_eq_false_iff_not]
      exact not_lt.mpr (add_nonneg (not_lt.mp ha) (not_lt.mp hb))

/-- Every computed line item total is not below zero. -/
lemma calcItem_total_nonneg (item : ItemInput) :
    jlt (calcItem item).1.total (.fin 0) = false := by
  unfold calcItem
  split
  · show jlt (.fin 0) (.fin 0) = false
    simp only [jlt, decide_eq_false_iff_not]
    exact lt_irrefl 0
  · rename_i h
    have h2 : invalidItem item = false := by
      cases q : invalidItem item
      · rfl
      · exact absurd q h
    simp only [invalidItem, Bool.or_eq_false_iff] at h2
    show jlt (jmul (jsToNumber item.quantity) (jsToNumber item.price)) (.fin 0) = false
    exact jmul_nonneg _ _ (toNumber_nonneg _ h2.1.1.1 h2.1.2)
      (toNumber_nonneg _ h2.1.1.2 h2.2)

/-- Left folds of jadd over item totals preserve non-negativity. -/
lemma foldl_jadd_nonneg (lis : List LineItem) :
    ∀ acc : JNum, jlt acc (.fin 0) = false →
      (∀ li ∈ lis, jlt li.total (.fin 0) = false) →
      jlt (lis.foldl (fun sum item => jadd sum item.total) acc) (.fin 0) = false := by
  induction lis with
  | nil => exact fun acc hacc h => hacc
  | cons x xs ih =>
    intro acc hacc h
    exact ih (jadd acc x.total) (jadd_nonneg _ _ hacc (h x (List.mem_cons_self x xs)))
      (fun li hli => h li (List.mem_cons_of_mem x hli))

/-- The subtotal is not below zero. -/
lemma subtotal_nonneg (items : List ItemInput) :
    jlt (calculateLineItems items).2 (.fin 0) = false := by
  unfold calculateLineItems
  refine foldl_jadd_nonneg _ _ (by simp [jlt]) ?_
  intro li hli
  simp only [List.mem_map] at hli
  obtain ⟨item, _, rfl⟩ := hli
  exact calcItem_total_nonneg item

/-- C1: for every item list, discount spec and rates, the computed totals
satisfy the fixed formulas and order: subtotal is the left-to-right sum of
the coerced line item totals; discountAmount is subtotal times value over 100
for a percentage discount and the raw value for a fixed one;
subtotalAfterDiscount is subtotal minus discountAmount; tax and vat are both
taken from the post-discount subtotal, and total adds them to it.  On the
concrete scenario with subtotal 100, a 10 percent discount and tax rate 0.08
this yields discountAmount 10.00, subtotalAfterDiscount 90.00, tax 7.20 and
total 97.20. -/
theorem C1_totals_formulas :
    (∀ (items : List ItemInput) (discount : Option Discount) (taxRate vatRate : ℚ),
      (computeTotals items discount taxRate vatRate).lineItems = (calculateLineItems items).1
      ∧ (computeTotals items discount taxRate vatRate).subtotal
          = ((calculateLineItems items).1).foldl (fun sum item => jadd sum item.total) (.fin 0)
      ∧ (computeTotals items discount taxRate vatRate).discountAmount
          = (match discount with
             | some d =>
               match d.type with
               | .percentage =>
                 jmul (computeTotals items discount taxRate vatRate).subtotal
                   (.fin (d.value / 100))
               | .fixed => .fin d.value
             | none => .fin 0)
      ∧ (computeTotals items discount taxRate vatRate).subtotalAfterDiscount
          = jsub (computeTotals items discount taxRate vatRate).subtotal
              (computeTotals items discount taxRate vatRate).discountAmount
      ∧ (computeTotals items discount taxRate vatRate).tax
          = jmul (computeTotals items discount taxRate vatRate).subtotalAfterDiscount
              (.fin taxRate)
      ∧ (computeTotals items discount taxRate vatRate).vat
          = jmul (computeTotals items discount taxRate vatRate).subtotalAfterDiscount
              (.fin vatRate)
      ∧ (computeTotals items discount taxRate vatRate).total
          = jadd (jadd (computeTotals items discount taxRate vatRate).subtotalAfterDiscount
                   (computeTotals items discount taxRate vatRate).tax)
              (computeTotals items discount taxRate vatRate).vat)
    ∧ computeTotals [⟨"A".data, .num (.fin 10), .num (.fin 10)⟩]
        (some ⟨.percentage, 10⟩) (2 / 25) 0
        = ⟨[⟨"A".data, .num (.fin 10), .num (.fin 10), .fin 100⟩], .fin 100, .fin 10,
           .fin 90, .fin (36 / 5), .fin 0, .fin (486 / 5)⟩
    ∧ jToFixed2 (.fin 10) = "10.00".data
    ∧ jToFixed2 (.fin 90) = "90.00".data
    ∧ jToFixed2 (.fin (36 / 5)) = "7.20".data
    ∧ jToFixed2 (.fin (486 / 5)) = "97.20".data := by
  refine ⟨?_, by with_unfolding_all decide⟩
  intro items discount taxRate vatRate
  refine ⟨rfl, rfl, ?_, rfl, rfl, rfl, rfl⟩
  rcases discount with _ | ⟨dt, dv⟩
  · rfl
  · cases dt <;> rfl

/-- C5: a fixed discount of value V is applied exactly, even beyond the
subtotal: discountAmount is V, subtotalAfterDiscount is subtotal minus V,
and tax, vat and total are computed from that (possibly negative) base with
no clamping.  On the concrete scenario with subtotal 4.50 and fixed discount
5.00 the post-discount subtotal is -0.50 and is strictly negative, with tax
and vat taken on the negative base. -/
theorem C5_fixed_discount_unclamped :
    (∀ (items : List ItemInput) (v taxRate vatRate : ℚ),
      (computeTotals items (some ⟨.fixed, v⟩) taxRate vatRate).discountAmount = .fin v
      ∧ (computeTotals items (some ⟨.fixed, v⟩) taxRate vatRate).subtotalAfterDiscount
          = jsub (computeTotals items (some ⟨.fixed, v⟩) taxRate vatRate).subtotal (.fin v)
      ∧ (computeTotals items (some ⟨.fixed, v⟩) taxRate vatRate).tax
          = jmul (computeTotals items (some ⟨.fixed, v⟩) taxRate vatRate).subtotalAfterDiscount
              (.fin taxRate)
      ∧ (computeTotals items (some ⟨.fixed, v⟩) taxRate vatRate).vat
          = jmul (computeTotals items (some ⟨.fixed, v⟩) taxRate vatRate).subtotalAfterDiscount
              (.fin vatRate)
      ∧ (computeTotals items (some ⟨.fixed, v⟩) taxRate vatRate).total
          = jadd (jadd (computeTotals items (some ⟨.fixed, v⟩) taxRate
                    vatRate).subtotalAfterDiscount
                   (computeTotals items (some ⟨.fixed, v⟩) taxRate vatRate).tax)
              (computeTotals items (some ⟨.fixed, v⟩) taxRate vatRate).vat)
    ∧ computeTotals [⟨"A".data, .num (.fin 1), .num (.fin (9 / 2))⟩]
        (some ⟨.fixed, 5⟩) (1 / 10) (1 / 20)
        = ⟨[⟨"A".data, .num (.fin 1), .num (.fin (9 / 2)), .fin (9 / 2)⟩], .fin (9 / 2),
           .fin 5, .fin (-(1 / 2)), .fin (-(1 / 20)), .fin (-(1 / 40)), .fin (-(23 / 40))⟩
    ∧ jlt (computeTotals [⟨"A".data, .num (.fin 1), .num (.fin (9 / 2))⟩]
        (some ⟨.fixed, 5⟩) (1 / 10) (1 / 20)).subtotalAfterDiscount (.fin 0) = true := by
  exact ⟨fun items v taxRate vatRate => ⟨rfl, rfl, rfl, rfl, rfl⟩,
    by with_unfolding_all decide, by with_unfolding_all decide⟩

/-- C6 counterexample: with a fixed discount of value -5 the computed
discountAmount is -5, which is strictly negative, refuting the claim that
the discount amount is never negative for every discount value. -/
theorem C6_counterexample :
    jlt (computeTotals [] (some ⟨.fixed, -5⟩) 0 0).discountAmount (.fin 0) = true := by
  with_unfolding_all decide

/-- C6 amended: for every input whose discount value, when a discount is
present, is non-negative, the computed discountAmount is never negative. -/
theorem C6_discountAmount_nonneg (items : List ItemInput) (discount : Option Discount)
    (taxRate vatRate : ℚ) (hv : ∀ d, discount = some d → 0 ≤ d.value) :
    jlt (computeTotals items discount taxRate vatRate).discountAmount (.fin 0) = false := by
  rcases discount with _ | ⟨dt, dv⟩
  · simp [computeTotals, jlt]
  · have hdv : (0 : ℚ) ≤ dv := hv ⟨dt, dv⟩ rfl
    cases dt
    · show jlt (jmul (calculateLineItems items).2 (.fin (dv / 100))) (.fin 0) = false
      exact jmul_nonneg _ _ (subtotal_nonneg items)
        (by simp [jlt, decide_eq_false_iff_not]; positivity)
    · show jlt (.fin dv) (.fin 0) = false
      simp [jlt, decide_eq_false_iff_not]
      linarith

/-- C6 witness: the amended theorem applied at a concrete percentage
discount. -/
theorem C6_witness :
    jlt (computeTotals [⟨"A".data, .num (.fin 2), .num (.fin 3)⟩]
      (some ⟨.percentage, 10⟩) 0 0).discountAmount (.fin 0) = false :=
  C6_discountAmount_nonneg [⟨"A".data, .num (.fin 2), .num (.fin 3)⟩]
    (some ⟨.percentage, 10⟩) 0 0 (by intro d h; cases h; norm_num)

/-- C2 counterexample: an item whose quantity is Infinity is not a finite
non-negative number, yet the code retains it uncoerced, emits no diagnostic,
and computes an Infinity total, refuting the claimed coercion of every
non-finite field to 0. -/
theorem C2_counterexample :
    (calcItem ⟨"X".data, .num .inf, .num (.fin 1)⟩).1
      = ⟨"X".data, .num .inf, .num (.fin 1), .inf⟩
    ∧ (calcItem ⟨"X".data, .num .inf, .num (.fin 1)⟩).2 = false
    ∧ ¬((calcItem ⟨"X".data, .num .inf, .num (.fin 1)⟩).1.quantity = .num (.fin 0)
        ∧ (calcItem ⟨"X".data, .num .inf, .num (.fin 1)⟩).1.price = .num (.fin 0)
        ∧ (calcItem ⟨"X".data, .num .inf, .num (.fin 1)⟩).1.total = .fin 0) := by
  with_unfolding_all decide

/-- C2 amended: items are mapped one to one in stable order; if the quantity
or price parses to NaN (in particular undefined, null, or NaN itself) or to a
negative number, both fields are coerced to 0 with a diagnostic and the line
total is 0; items with finite non-negative numeric fields get total equal to
quantity times price; and no line total is ever below zero under the JS
comparison.  Non-finite non-negative values such as Infinity are not
coerced. -/
theorem C2_invalid_items_coerced :
    (∀ items : List ItemInput,
      (calculateLineItems items).1 = items.map (fun item => (calcItem item).1)
      ∧ ((calculateLineItems items).1).length = items.length)
    ∧ (∀ item : ItemInput,
        (invalidItem item = true →
          calcItem item = (⟨item.name, .num (.fin 0), .num (.fin 0), .fin 0⟩, true))
        ∧ (invalidItem item = false → (calcItem item).2 = false)
        ∧ (∀ a b : ℚ, item.quantity = .num (.fin a) → item.price = .num (.fin b) →
            0 ≤ a → 0 ≤ b → (calcItem item).1.total = .fin (a * b))
        ∧ jlt (calcItem item).1.total (.fin 0) = false) := by
  refine ⟨fun items => ⟨rfl, by simp [calculateLineItems]⟩, fun item => ⟨?_, ?_, ?_, ?_⟩⟩
  · intro h
    simp [calcItem, h]
  · intro h
    simp [calcItem, h]
  · intro a b hq hp ha hb
    have hinv : invalidItem item = false := by
      simp [invalidItem, hq, hp, jsParseFloat, jisNaN, jlt, decide_eq_false_iff_not]
      constructor <;> linarith
    simp [calcItem, hinv, hq, hp, jsToNumber, jmul]
  · exact calcItem_total_nonneg item

/-- C2 witness: the amended theorem applied to a null-quantity item (coerced,
diagnostic fired) and to a valid item (total is quantity times price, not
below zero). -/
theorem C2_witness :
    calcItem ⟨"B".data, .jnull, .num (.fin 2)⟩
      = (⟨"B".data, .num (.fin 0), .num (.fin 0), .fin 0⟩, true)
    ∧ (calcItem ⟨"M".data, .num (.fin 2), .num (.fin (7 / 2))⟩).1.total = .fin (2 * (7 / 2))
    ∧ jlt (calcItem ⟨"M".data, .num (.fin 2), .num (.fin (7 / 2))⟩).1.total (.fin 0)
        = false := by
  refine ⟨(C2_invalid_items_coerced.2 ⟨"B".data, .jnull, .num (.fin 2)⟩).1
      (by with_unfolding_all decide),
    (C2_invalid_items_coerced.2 ⟨"M".data, .num (.fin 2), .num (.fin (7 / 2))⟩).2.2.1
      2 (7 / 2) rfl rfl (by norm_num) (by norm_num),
    (C2_invalid_items_coerced.2 ⟨"M".data, .num (.fin 2), .num (.fin (7 / 2))⟩).2.2.2⟩

/-- Every run of the wrap loop produces at least one line, since the final
currentLine is always pushed. -/
lemma wrapGo_ne_nil (budget : ℤ) (ws : List Str) (cl : Str) :
    wrapGo budget ws cl ≠ [] := by
  induction ws generalizing cl with
  | nil => simp [wrapGo]
  | cons w ws ih =>
    unfold wrapGo
    split
    · simp
    · exact ih _

/-- wrapText always returns at least one line. -/
lemma wrapText_ne_nil (text : Str) (budget : ℤ) : wrapText text budget ≠ [] :=
  wrapGo_ne_nil budget (splitSp text) []

/-- After the calculator, the quantity field of every line item is a number
(the coercion replaced undefined and null, which parse to NaN). -/
lemma calcItem_quantity_isnum (item : ItemInput) :
    ∃ x, (calcItem item).1.quantity = JVal.num x := by
  unfold calcItem
  split
  · exact ⟨.fin 0, rfl⟩
  · rename_i h
    cases hq : item.quantity with
    | num x => exact ⟨x, rfl⟩
    | undef => exact absurd (by simp [invalidItem, hq, jsParseFloat, jisNaN]) h
    | jnull => exact absurd (by simp [invalidItem, hq, jsParseFloat, jisNaN]) h

/-- The row builder succeeds on every line item whose quantity is a number. -/
lemma itemRows?_isSome (currency : Str) (item : LineItem) (x : JNum)
    (hq : item.quantity = .num x) : (itemRows? currency item).isSome = true := by
  unfold itemRows?
  rw [hq]
  simp only [jsToStringE]
  split
  · rename_i hW
    exact absurd hW (wrapText_ne_nil _ _)
  · rfl

/-- The Option-valued map succeeds when every element succeeds. -/
lemma mapMO_isSome (f : LineItem → Option (List Str)) (lis : List LineItem)
    (h : ∀ li ∈ lis, (f li).isSome = true) : (mapMO f lis).isSome = true := by
  induction lis with
  | nil => rfl
  | cons x xs ih =>
    unfold mapMO
    rcases hx : f x with _ | r
    · have hmem := h x (List.mem_cons_self x xs)
      rw [hx] at hmem
      exact absurd hmem (by simp)
    · have hxs2 := ih (fun li hli => h li (List.mem_cons_of_mem x hli))
      rcases hxs : mapMO f xs with _ | rs
      · rw [hxs] at hxs2
        exact absurd hxs2 (by simp)
      · simp [hx, hxs]

/-- C8: the text renderer returns a string and never fails, for every receipt
input over this value domain — including items whose quantity or price is
NaN, negative, undefined or null: malformed numeric fields degrade to zero
with a diagnostic instead of raising an error. -/
theorem C8_renderer_never_fails :
    ∀ data : ReceiptData,
      (generateReceipt? data).isSome = true
      ∧ ∀ item ∈ data.items, invalidItem item = true →
          (calcItem item).2 = true ∧ (calcItem item).1.total = .fin 0 := by
  intro data
  constructor
  · have hsec : (itemSection? data.currency
        (computeTotals data.items data.discount data.taxRate data.vatRate).lineItems).isSome
          = true := by
      have h2 : (mapMO (itemRows? data.currency)
          (computeTotals data.items data.discount data.taxRate data.vatRate).lineItems).isSome
            = true := by
        apply mapMO_isSome
        intro li hli
        have hmem : li ∈ (calculateLineItems data.items).1 := hli
        simp only [calculateLineItems, List.mem_map] at hmem
        obtain ⟨item, _, rfl⟩ := hmem
        obtain ⟨x, hx⟩ := calcItem_quantity_isnum item
        exact itemRows?_isSome _ _ x hx
      unfold itemSection?
      rcases hmm : mapMO (itemRows? data.currency)
          (computeTotals data.items data.discount data.taxRate data.vatRate).lineItems
        with _ | rs
      · rw [hmm] at h2
        exact absurd h2 (by simp)
      · rfl
    obtain ⟨rows, hrows⟩ := Option.isSome_iff_exists.mp hsec
    simp [generateReceipt?, generateReceiptLines?, hrows]
  · intro item _ h
    exact ⟨by simp [calcItem, h], by simp [calcItem, h]⟩

/-- C8 witness: a receipt whose items carry NaN, negative, undefined and null
fields still renders, and each malformed item was coerced with a diagnostic. -/
theorem C8_witness :
    (generateReceipt? { items := [⟨"A".data, .num .nan, .num (.fin 1)⟩,
        ⟨"B".data, .undef, .jnull⟩, ⟨"C".data, .num (.fin (-2)), .num (.fin 3)⟩] }).isSome
        = true
    ∧ ((calcItem ⟨"B".data, .undef, .jnull⟩).2 = true
        ∧ (calcItem ⟨"B".data, .undef, .jnull⟩).1.total = .fin 0) :=
  ⟨(C8_renderer_never_fails { items := [⟨"A".data, .num .nan, .num (.fin 1)⟩,
      ⟨"B".data, .undef, .jnull⟩, ⟨"C".data, .num (.fin (-2)), .num (.fin 3)⟩] }).1,
   (C8_renderer_never_fails { items := [⟨"A".data, .num .nan, .num (.fin 1)⟩,
      ⟨"B".data, .undef, .jnull⟩, ⟨"C".data, .num (.fin (-2)), .num (.fin 3)⟩] }).2
     ⟨"B".data, .undef, .jnull⟩ (by simp) (by with_unfolding_all decide)⟩

/-- C10: wrapText returns at least one line for every text (the empty string
included) and every width budget, so the renderer's access to the first
wrapped name line is in bounds and every item contributes at least one row. -/
theorem C10_wrap_always_nonempty :
    (∀ (text : Str) (budget : ℤ), wrapText text budget ≠ [])
    ∧ (∀ (currency : Str) (item : LineItem) (rows : List Str),
        itemRows? currency item = some rows → 1 ≤ rows.length) := by
  refine ⟨fun text budget => wrapText_ne_nil text budget, ?_⟩
  intro currency item rows h
  unfold itemRows? at h
  split at h
  · exact Option.noConfusion h
  · split at h
    · exact Option.noConfusion h
    · injection h with h2
      rw [← h2]
      simp

/-- C10 witness: the empty text wraps to one line, and an item with an empty
name still yields one rendered row. -/
theorem C10_witness :
    wrapText ("".data) 5 ≠ []
    ∧ 1 ≤ ((itemRows? ("$".data) ⟨[], .num (.fin 0), .num (.fin 0), .fin 0⟩).getD []).length :=
  ⟨C10_wrap_always_nonempty.1 ("".data) 5,
   C10_wrap_always_nonempty.2 ("$".data) ⟨[], .num (.fin 0), .num (.fin 0), .fin 0⟩
     ((itemRows? ("$".data) ⟨[], .num (.fin 0), .num (.fin 0), .fin 0⟩).getD [])
     (by with_unfolding_all rfl)⟩

/-- The length of the rows built for one item equals its wrapped name line
count. -/
lemma itemRows?_length (currency : Str) (item : LineItem) (rows : List Str)
    (h : itemRows? currency item = some rows) :
    rows.length = nameLineCount currency item := by
  unfold itemRows? at h
  split at h
  · exact Option.noConfusion h
  · rename_i qty hq
    split at h
    · exact Option.noConfusion h
    · rename_i l0 ls hW
      injection h with h2
      rw [← h2]
      simp only [nameLineCount, hq, hW]
      simp

/-- C9: the number of item rows emitted equals the sum over the line items of
the number of wrapped name lines for each. -/
theorem C9_row_count :
    ∀ (currency : Str) (lineItems : List LineItem) (rows : List Str),
      itemSection? currency lineItems = some rows →
      rows.length = (lineItems.map (nameLineCount currency)).sum := by
  intro currency lineItems
  induction lineItems with
  | nil =>
    intro rows h
    simp only [itemSection?, mapMO] at h
    injection h with h2
    rw [← h2]
    rfl
  | cons x xs ih =>
    intro rows h
    simp only [itemSection?, mapMO] at h
    rcases hx : itemRows? currency x with _ | r <;> rw [hx] at h
    · exact Option.noConfusion h
    · rcases hxs : mapMO (itemRows? currency) xs with _ | rs <;> rw [hxs] at h
      · exact Option.noConfusion h
      · simp only [Option.map_some] at h
        injection h with h2
        rw [← h2]
        have hrec : rs.flatten.length = (xs.map (nameLineCount currency)).sum := by
          apply ih
          simp [itemSection?, hxs]
        simp [List.length_append, hrec, itemRows?_length currency x r hx]

/-- C9 witness: a two item receipt, one name of which wraps to two lines,
emits three rows in total. -/
theorem C9_witness :
    ((itemSection? ("$".data)
        [⟨"Organic whole milk bottle".data, .num (.fin 2), .num (.fin (7 / 2)), .fin 7⟩,
         ⟨"Egg".data, .num (.fin 1), .num (.fin 5), .fin 5⟩]).getD []).length
      = ([⟨"Organic whole milk bottle".data, .num (.fin 2), .num (.fin (7 / 2)), .fin 7⟩,
          ⟨"Egg".data, .num (.fin 1), .num (.fin 5), .fin 5⟩].map
            (nameLineCount ("$".data))).sum :=
  C9_row_count ("$".data)
    [⟨"Organic whole milk bottle".data, .num (.fin 2), .num (.fin (7 / 2)), .fin 7⟩,
     ⟨"Egg".data, .num (.fin 1), .num (.fin 5), .fin 5⟩]
    ((itemSection? ("$".data)
        [⟨"Organic whole milk bottle".data, .num (.fin 2), .num (.fin (7 / 2)), .fin 7⟩,
         ⟨"Egg".data, .num (.fin 1), .num (.fin 5), .fin 5⟩]).getD [])
    (by with_unfolding_all rfl)

/-- A digit character below ten is a digit. -/
lemma digitChar_isDigit (d : ℕ) (h : d < 10) : (Nat.digitChar d).isDigit = true := by
  interval_cases d <;> rfl

/-- C4 counterexample: for the line item 2 x Milk at total 7.00 the rendered
first row carries the quantity right-padded (left-aligned), not left-padded
to width 3 as the claim states: the claimed row differs from the actual one. -/
theorem C4_counterexample :
    itemRows? ("$".data) ⟨"Milk".data, .num (.fin 2), .num (.fin (7 / 2)), .fin 7⟩
      ≠ some [padStartZ ("2".data) 3
          ++ ' ' :: padEndZ ("Milk".data) 24 ++ ' ' :: padStartZ ("$7.00".data) 7] := by
  with_unfolding_all decide

/-- C4 amended: every line item row consists of the quantity right-padded
(left-aligned) to width 3, the first wrapped name line padded to the
max-name-length 32 minus the quantity width minus the formatted total width
minus 2, and the right-aligned formatted total; continuation wrapped name
lines each get their own subsequent row, indented by four spaces, with no
quantity and no total; and for finite totals the formatted total carries
exactly two fraction digits after the decimal point. -/
theorem C4_item_row_layout :
    ∀ (currency : Str) (item : LineItem) (qty : Str),
      jsToStringE item.quantity = some qty →
      itemRows? currency item
        = some ((padEndZ qty 3
            ++ ' ' :: padEndZ ((wrapText item.name
                  (32 - (qty.length : ℤ)
                    - ((currency ++ jToFixed2 item.total).length : ℤ) - 2)).headD [])
                (32 - (qty.length : ℤ)
                  - ((currency ++ jToFixed2 item.total).length : ℤ) - 2)
            ++ ' ' :: padStartZ (currency ++ jToFixed2 item.total) 7)
          :: (wrapText item.name
                (32 - (qty.length : ℤ)
                  - ((currency ++ jToFixed2 item.total).length : ℤ) - 2)).tail.map
              (fun l => ' ' :: ' ' :: ' ' :: ' ' :: padEndZ l
                (32 - (qty.length : ℤ)
                  - ((currency ++ jToFixed2 item.total).length : ℤ) - 2 + 3)))
      ∧ (∀ q : ℚ, item.total = .fin q →
          ∃ pre d1 d2, jToFixed2 item.total = pre ++ '.' :: [d1, d2]
            ∧ d1.isDigit = true ∧ d2.isDigit = true) := by
  intro currency item qty hq
  constructor
  · unfold itemRows?
    rw [hq]
    simp only [jsToStringE]
    rcases hW : wrapText item.name
        (32 - (qty.length : ℤ) - ((currency ++ jToFixed2 item.total).length : ℤ) - 2)
      with _ | ⟨l0, ls⟩
    · exact absurd hW (wrapText_ne_nil _ _)
    · simp
  · intro q hq2
    rw [hq2]
    simp only [jToFixed2, fixed2Abs]
    split_ifs with hneg
    · exact ⟨'-' :: natDigitsS ((⌊-q * 100 + 1 / 2⌋).toNat / 100),
        Nat.digitChar ((⌊-q * 100 + 1 / 2⌋).toNat / 10 % 10),
        Nat.digitChar ((⌊-q * 100 + 1 / 2⌋).toNat % 10),
        by simp,
        digitChar_isDigit _ (Nat.mod_lt _ (by norm_num)),
        digitChar_isDigit _ (Nat.mod_lt _ (by norm_num))⟩
    · exact ⟨natDigitsS ((⌊q * 100 + 1 / 2⌋).toNat / 100),
        Nat.digitChar ((⌊q * 100 + 1 / 2⌋).toNat / 10 % 10),
        Nat.digitChar ((⌊q * 100 + 1 / 2⌋).toNat % 10),
        by simp,
        digitChar_isDigit _ (Nat.mod_lt _ (by norm_num)),
        digitChar_isDigit _ (Nat.mod_lt _ (by norm_num))⟩

/-- C4 witness: the amended layout applied to the 2 x Milk item. -/
theorem C4_witness :
    itemRows? ("$".data) ⟨"Milk".data, .num (.fin 2), .num (.fin (7 / 2)), .fin 7⟩
      = some ((padEndZ ("2".data) 3
          ++ ' ' :: padEndZ ((wrapText ("Milk".data) 24).headD []) 24
          ++ ' ' :: padStartZ (("$".data) ++ jToFixed2 (.fin 7)) 7)
        :: (wrapText ("Milk".data) 24).tail.map
            (fun l => ' ' :: ' ' :: ' ' :: ' ' :: padEndZ l 27)) := by
  have h := (C4_item_row_layout ("$".data)
    ⟨"Milk".data, .num (.fin 2), .num (.fin (7 / 2)), .fin 7⟩ ("2".data)
    (by with_unfolding_all rfl)).1
  rw [h]
  with_unfolding_all rfl

/-- Strings whose head satisfies no whitespace are fixed by dropWhile. -/
lemma dropWhile_eq_self_of_head (p : Char → Bool) (l : Str)
    (h : ∀ c, l.head? = some c → p c = false) : l.dropWhile p = l := by
  cases l with
  | nil => rfl
  | cons a t => simp [List.dropWhile_cons, h a rfl]

/-- The head of an append with a nonempty left part. -/
lemma head?_append_of_ne_nil (a b : Str) (h : a ≠ []) : (a ++ b).head? = a.head? := by
  cases a with
  | nil => exact absurd rfl h
  | cons x t => rfl

/-- The last element of an append with a nonempty right part. -/
lemma getLast?_append_of_ne_nil (a b : Str) (h : b ≠ []) :
    (a ++ b).getLast? = b.getLast? := by
  rw [← List.head?_reverse, ← List.head?_reverse, List.reverse_append]
  exact head?_append_of_ne_nil _ _ (by simpa using h)

/-- An element described by head? is a member. -/
lemma mem_of_head?_eq {l : Str} {c : Char} (h : l.head? = some c) : c ∈ l := by
  cases l with
  | nil => simp at h
  | cons a t =>
    simp only [List.head?_cons, Option.some_inj] at h
    exact h ▸ List.mem_cons_self a t

/-- An element described by getLast? is a member. -/
lemma mem_of_getLast?_eq {l : Str} {c : Char} (h : l.getLast? = some c) : c ∈ l := by
  rw [← List.head?_reverse] at h
  have hm := mem_of_head?_eq h
  simpa using hm

/-- Trimming a clean line with one trailing space gives back the line:
this is how the source loop cancels the space it appends after each word. -/
lemma trimS_of_clean (cl : Str) (hne : cl ≠ [])
    (hh : ∀ c, cl.head? = some c → isWs c = false)
    (hl : ∀ c, cl.getLast? = some c → isWs c = false) :
    trimS (cl ++ [' ']) = cl := by
  unfold trimS
  have h1 : (cl ++ [' ']).dropWhile isWs = cl ++ [' '] := by
    apply dropWhile_eq_self_of_head
    intro c hc
    rw [head?_append_of_ne_nil cl [' '] hne] at hc
    exact hh c hc
  rw [h1]
  have h2 : (cl ++ [' ']).reverse = ' ' :: cl.reverse := by simp
  rw [h2]
  have h3 : (' ' :: cl.reverse).dropWhile isWs = cl.reverse.dropWhile isWs := by
    simp [List.dropWhile_cons, isWs]
  rw [h3]
  have h4 : cl.reverse.dropWhile isWs = cl.reverse := by
    apply dropWhile_eq_self_of_head
    intro c hc
    rw [List.head?_reverse] at hc
    exact hl c hc
  rw [h4, List.reverse_reverse]

/-- The wrap loop of the source coincides with the greedy wrap of the spec,
under the invariant that the source carries the current line with a trailing
space; the hypothesis asks that every word is nonempty and free of
whitespace characters. -/
lemma wrapGo_eq_greedyGo (budget : ℤ) (ws : List Str)
    (hws : ∀ w ∈ ws, w ≠ [] ∧ ∀ c ∈ w, isWs c = false) :
    (wrapGo budget ws [] = greedyGo budget ws [])
    ∧ (∀ cl : Str, cl ≠ [] →
        (∀ c, cl.head? = some c → isWs c = false) →
        (∀ c, cl.getLast? = some c → isWs c = false) →
        wrapGo budget ws (cl ++ [' ']) = greedyGo budget ws cl) := by
  induction ws with
  | nil =>
    refine ⟨rfl, ?_⟩
    intro cl hne hh hl
    show [trimS (cl ++ [' '])] = [cl]
    rw [trimS_of_clean cl hne hh hl]
  | cons w ws ih =>
    have hw := hws w (List.mem_cons_self w ws)
    have ihs := ih (fun v hv => hws v (List.mem_cons_of_mem w hv))
    have hwh : ∀ c, w.head? = some c → isWs c = false :=
      fun c hc => hw.2 c (mem_of_head?_eq hc)
    have hwl : ∀ c, w.getLast? = some c → isWs c = false :=
      fun c hc => hw.2 c (mem_of_getLast?_eq hc)
    constructor
    · unfold wrapGo greedyGo
      rw [if_neg (fun hcont => hcont.2 rfl), if_pos rfl]
      show wrapGo budget ws (w ++ [' ']) = greedyGo budget ws w
      exact ihs.2 w hw.1 hwh hwl
    · intro cl hne hh hl
      have hlen1 : ((cl ++ [' ']) ++ w).length = (cl ++ ' ' :: w).length := by
        simp only [List.length_append, List.length_cons, List.length_nil]
        omega
      by_cases hfit : ((cl ++ ' ' :: w).length : ℤ) ≤ budget
      · have hcond : ¬((((cl ++ [' ']) ++ w).length : ℤ) > budget ∧ cl ++ [' '] ≠ []) := by
          intro hc
          rw [hlen1] at hc
          exact absurd hc.1 (not_lt.mpr hfit)
        unfold wrapGo greedyGo
        rw [if_neg hcond, if_neg hne, if_pos hfit]
        have hstep : (cl ++ [' ']) ++ w ++ [' '] = (cl ++ ' ' :: w) ++ [' '] := by simp
        rw [hstep]
        refine ihs.2 (cl ++ ' ' :: w) (by simp) ?_ ?_
        · intro c hc
          rw [head?_append_of_ne_nil cl (' ' :: w) hne] at hc
          exact hh c hc
        · intro c hc
          have hsp : cl ++ ' ' :: w = (cl ++ [' ']) ++ w := by simp
          rw [hsp, getLast?_append_of_ne_nil _ w hw.1] at hc
          exact hwl c hc
      · have hcond : (((cl ++ [' ']) ++ w).length : ℤ) > budget ∧ cl ++ [' '] ≠ [] := by
          refine ⟨?_, by simp⟩
          rw [hlen1]
          exact not_le.mp hfit
        unfold wrapGo greedyGo
        rw [if_pos hcond, if_neg hne, if_neg hfit]
        rw [trimS_of_clean cl hne hh hl]
        congr 1
        exact ihs.2 w hw.1 hwh hwl

/-- A word wider than the budget that has just been placed on the current
line ends up alone on its own output line. -/
lemma wide_word_step (budget : ℤ) (ws : List Str) (w : Str)
    (hlen : (w.length : ℤ) > budget)
    (hh : ∀ c, w.head? = some c → isWs c = false)
    (hl : ∀ c, w.getLast? = some c → isWs c = false)
    (hne : w ≠ []) :
    w ∈ wrapGo budget ws (w ++ [' ']) := by
  cases ws with
  | nil =>
    show w ∈ [trimS (w ++ [' '])]
    rw [trimS_of_clean w hne hh hl]
    exact List.mem_singleton.mpr rfl
  | cons v vs =>
    unfold wrapGo
    have hcond : (((w ++ [' ']) ++ v).length : ℤ) > budget ∧ w ++ [' '] ≠ [] := by
      refine ⟨?_, by simp⟩
      have hge : ((w ++ [' ']) ++ v).length = w.length + 1 + v.length := by
        simp only [List.length_append, List.length_cons, List.length_nil]
      rw [hge]
      push_cast
      linarith
    rw [if_pos hcond, trimS_of_clean w hne hh hl]
    exact List.mem_cons_self w _

/-- Every word wider than the budget appears intact as one of the output
lines, whatever the current line is when it arrives. -/
lemma wide_word_in_wrapGo (budget : ℤ) (w : Str)
    (hlen : (w.length : ℤ) > budget)
    (hh : ∀ c, w.head? = some c → isWs c = false)
    (hl : ∀ c, w.getLast? = some c → isWs c = false)
    (hne : w ≠ []) :
    ∀ ws : List Str, w ∈ ws → ∀ cl : Str, w ∈ wrapGo budget ws cl := by
  intro ws
  induction ws with
  | nil => intro h; simp at h
  | cons v vs ih =>
    intro hmem cl
    rcases List.mem_cons.mp hmem with rfl | hmem2
    · by_cases hcl : cl = []
      · subst hcl
        unfold wrapGo
        rw [if_neg (fun hcont => hcont.2 rfl)]
        show w ∈ wrapGo budget vs (w ++ [' '])
        exact wide_word_step budget vs w hlen hh hl hne
      · unfold wrapGo
        have hcond : (((cl ++ w).length : ℤ) > budget ∧ cl ≠ []) := by
          refine ⟨?_, hcl⟩
          have hge : (cl ++ w).length = cl.length + w.length := by
            simp only [List.length_append]
          rw [hge]
          push_cast
          linarith [Nat.zero_le cl.length]
        rw [if_pos hcond]
        exact List.mem_cons_of_mem _ (wide_word_step budget vs w hlen hh hl hne)
    · unfold wrapGo
      split
      · exact List.mem_cons_of_mem _ (ih hmem2 _)
      · exact ih hmem2 _

/-- C3: on texts whose space-separated words are nonempty and free of
whitespace characters, wrapText is exactly the greedy word-wrap of the spec:
words accumulate into the current line while the width of the current line
plus a space plus the next word stays within the budget, otherwise the line
is flushed and a new one starts with that word; and every single word wider
than the budget is placed intact, alone on its own line. -/
theorem C3_wrapText_is_greedy :
    ∀ (text : Str) (budget : ℤ),
      (∀ w ∈ splitSp text, w ≠ [] ∧ ∀ c ∈ w, isWs c = false) →
      wrapText text budget = greedyWrap text budget
      ∧ ∀ w ∈ splitSp text, (w.length : ℤ) > budget → w ∈ wrapText text budget := by
  intro text budget hws
  refine ⟨(wrapGo_eq_greedyGo budget (splitSp text) hws).1, ?_⟩
  intro w hw hlen
  have h2 := hws w hw
  exact wide_word_in_wrapGo budget w hlen
    (fun c hc => h2.2 c (mem_of_head?_eq hc))
    (fun c hc => h2.2 c (mem_of_getLast?_eq hc))
    h2.1 (splitSp text) hw []

/-- C3 witness: the theorem applied to a concrete text and budget, with the
over-wide word hello landing on its own line. -/
theorem C3_witness :
    wrapText ("hello world".data) 3 = greedyWrap ("hello world".data) 3
    ∧ "hello".data ∈ wrapText ("hello world".data) 3 :=
  ⟨(C3_wrapText_is_greedy ("hello world".data) 3 (by with_unfolding_all decide)).1,
   (C3_wrapText_is_greedy ("hello world".data) 3 (by with_unfolding_all decide)).2
     ("hello".data) (by with_unfolding_all decide) (by with_unfolding_all decide)⟩

/-- Heads of the four summary rows, used to tell the rows apart. -/
lemma headD_subtotalLine (currency : Str) (s : JNum) :
    (subtotalLine currency s).headD ' ' = 'S' := rfl

/-- The discount row starts with the letter D in both label forms. -/
lemma headD_discountLine (currency : Str) (d : Discount) (a : JNum) :
    (discountLine currency d a).headD ' ' = 'D' := by
  rcases d with ⟨dt, dv⟩
  cases dt <;> rfl

/-- The VAT row starts with the letter V. -/
lemma headD_vatLine (currency : Str) (r : ℚ) (v : JNum) :
    (vatLine currency r v).headD ' ' = 'V' := rfl

/-- The Tax row starts with the letter T. -/
lemma headD_taxLine (currency : Str) (r : ℚ) (t : JNum) :
    (taxLine currency r t).headD ' ' = 'T' := rfl

/-- Two strings with distinct heads are distinct. -/
lemma ne_of_headD {a b : Str} {x y : Char} (ha : a.headD ' ' = x)
    (hb : b.headD ' ' = y) (hxy : x ≠ y) : a ≠ b := by
  intro h
  rw [h, hb] at ha
  exact hxy ha.symm

/-- Membership in the summary block, characterised row by row. -/
lemma mem_summaryLines (currency : Str) (discount : Option Discount) (t : Totals)
    (taxRate vatRate : ℚ) (l : Str) :
    l ∈ summaryLines currency discount t taxRate vatRate ↔
      l = subtotalLine currency t.subtotal
      ∨ (jgt t.discountAmount (.fin 0) = true
          ∧ ∃ d, discount = some d ∧ l = discountLine currency d t.discountAmount)
      ∨ (jgt t.vat (.fin 0) = true ∧ l = vatLine currency vatRate t.vat)
      ∨ (jgt t.tax (.fin 0) = true ∧ l = taxLine currency taxRate t.tax) := by
  unfold summaryLines
  rcases discount with _ | d <;>
    cases hd : jgt t.discountAmount (.fin 0) <;>
    cases hv : jgt t.vat (.fin 0) <;>
    cases ht : jgt t.tax (.fin 0) <;>
    simp [hd, hv, ht]

/-- C7: in the summary block the Subtotal row is always present; the
Discount row is present exactly when discountAmount is greater than zero,
labeled with the percentage value for a percentage discount and plain
Discount for a fixed one, its value shown negative; the VAT row is present
exactly when vat is greater than zero and the Tax row exactly when tax is
greater than zero, each labeled with its rate times one hundred formatted to
two decimals. -/
theorem C7_summary_block :
    ∀ (currency : Str) (discount : Option Discount) (t : Totals) (taxRate vatRate : ℚ),
      (discount = none → t.discountAmount = .fin 0) →
      (subtotalLine currency t.subtotal ∈ summaryLines currency discount t taxRate vatRate
      ∧ ((∃ d, discount = some d
            ∧ discountLine currency d t.discountAmount
                ∈ summaryLines currency discount t taxRate vatRate)
          ↔ jgt t.discountAmount (.fin 0) = true)
      ∧ (∀ d : Discount, d.type = .percentage →
          discountLabel d = "Discount (".data ++ ratToString d.value ++ "%)".data)
      ∧ (∀ d : Discount, d.type = .fixed → discountLabel d = "Discount".data)
      ∧ (∀ d : Discount, discountLine currency d t.discountAmount
          = discountLabel d ++ ": ".data
            ++ padStartZ ('-' :: (currency ++ jToFixed2 t.discountAmount))
                (29 - ((discountLabel d).length : ℤ)))
      ∧ ((vatLine currency vatRate t.vat ∈ summaryLines currency discount t taxRate vatRate)
          ↔ jgt t.vat (.fin 0) = true)
      ∧ vatLine currency vatRate t.vat
          = "VAT (".data ++ jToFixed2 (.fin (vatRate * 100)) ++ "%): ".data
            ++ padStartZ (currency ++ jToFixed2 t.vat) 20
      ∧ ((taxLine currency taxRate t.tax ∈ summaryLines currency discount t taxRate vatRate)
          ↔ jgt t.tax (.fin 0) = true)
      ∧ taxLine currency taxRate t.tax
          = "Tax (".data ++ jToFixed2 (.fin (taxRate * 100)) ++ "%): ".data
            ++ padStartZ (currency ++ jToFixed2 t.tax) 20) := by
  intro currency discount t taxRate vatRate hnone
  refine ⟨(mem_summaryLines currency discount t taxRate vatRate _).mpr (Or.inl rfl),
    ⟨?_, ?_⟩, ?_, ?_, fun d => rfl, ⟨?_, ?_⟩, rfl, ⟨?_, ?_⟩, rfl⟩
  · rintro ⟨d, hdisc, hmem⟩
    rcases (mem_summaryLines currency discount t taxRate vatRate _).mp hmem with
      h | ⟨hpos, _, _, _⟩ | ⟨_, h⟩ | ⟨_, h⟩
    · exact absurd h (ne_of_headD (headD_discountLine currency d t.discountAmount)
        (headD_subtotalLine currency t.subtotal) (by decide))
    · exact hpos
    · exact absurd h (ne_of_headD (headD_discountLine currency d t.discountAmount)
        (headD_vatLine currency vatRate t.vat) (by decide))
    · exact absurd h (ne_of_headD (headD_discountLine currency d t.discountAmount)
        (headD_taxLine currency taxRate t.tax) (by decide))
  · intro hpos
    rcases discount with _ | d
    · rw [hnone rfl] at hpos
      exact absurd hpos (by simp [jgt, jlt])
    · exact ⟨d, rfl, (mem_summaryLines currency (some d) t taxRate vatRate _).mpr
        (Or.inr (Or.inl ⟨hpos, d, rfl, rfl⟩))⟩
  · rintro ⟨dt, dv⟩ h
    cases dt
    · rfl
    · exact DiscountType.noConfusion h
  · rintro ⟨dt, dv⟩ h
    cases dt
    · exact DiscountType.noConfusion h
    · rfl
  · intro hmem
    rcases (mem_summaryLines currency discount t taxRate vatRate _).mp hmem with
      h | ⟨_, d, _, h⟩ | ⟨hpos, _⟩ | ⟨_, h⟩
    · exact absurd h (ne_of_headD (headD_vatLine currency vatRate t.vat)
        (headD_subtotalLine currency t.subtotal) (by decide))
    · exact absurd h (ne_of_headD (headD_vatLine currency vatRate t.vat)
        (headD_discountLine currency d t.discountAmount) (by decide))
    · exact hpos
    · exact absurd h (ne_of_headD (headD_vatLine currency vatRate t.vat)
        (headD_taxLine currency taxRate t.tax) (by decide))
  · intro hpos
    exact (mem_summaryLines currency discount t taxRate vatRate _).mpr
      (Or.inr (Or.inr (Or.inl ⟨hpos, rfl⟩)))
  · intro hmem
    rcases (mem_summaryLines currency discount t taxRate vatRate _).mp hmem with
      h | ⟨_, d, _, h⟩ | ⟨_, h⟩ | ⟨hpos, _⟩
    · exact absurd h (ne_of_headD (headD_taxLine currency taxRate t.tax)
        (headD_subtotalLine currency t.subtotal) (by decide))
    · exact absurd h (ne_of_headD (headD_taxLine currency taxRate t.tax)
        (headD_discountLine currency d t.discountAmount) (by decide))
    · exact absurd h (ne_of_headD (headD_taxLine currency taxRate t.tax)
        (headD_vatLine currency vatRate t.vat) (by decide))
    · exact hpos
  · intro hpos
    exact (mem_summaryLines currency discount t taxRate vatRate _).mpr
      (Or.inr (Or.inr (Or.inr ⟨hpos, rfl⟩)))

/-- C7 witness: on the concrete percentage scenario the Subtotal row is
present and the VAT row is present exactly when vat is positive. -/
theorem C7_witness :
    subtotalLine ("$".data)
        (computeTotals [⟨"A".data, .num (.fin 10), .num (.fin 10)⟩]
          (some ⟨.percentage, 10⟩) (2 / 25) 0).subtotal
      ∈ summaryLines ("$".data) (some ⟨.percentage, 10⟩)
          (computeTotals [⟨"A".data, .num (.fin 10), .num (.fin 10)⟩]
            (some ⟨.percentage, 10⟩) (2 / 25) 0) (2 / 25) 0
    ∧ ((vatLine ("$".data) 0
          (computeTotals [⟨"A".data, .num (.fin 10), .num (.fin 10)⟩]
            (some ⟨.percentage, 10⟩) (2 / 25) 0).vat
        ∈ summaryLines ("$".data) (some ⟨.percentage, 10⟩)
            (computeTotals [⟨"A".data, .num (.fin 10), .num (.fin 10)⟩]
              (some ⟨.percentage, 10⟩) (2 / 25) 0) (2 / 25) 0)
      ↔ jgt (computeTotals [⟨"A".data, .num (.fin 10), .num (.fin 10)⟩]
          (some ⟨.percentage, 10⟩) (2 / 25) 0).vat (.fin 0) = true) :=
  ⟨(C7_summary_block ("$".data) (some ⟨.percentage, 10⟩)
      (computeTotals [⟨"A".data, .num (.fin 10), .num (.fin 10)⟩]
        (some ⟨.percentage, 10⟩) (2 / 25) 0) (2 / 25) 0
      (fun h => Option.noConfusion h)).1,
   (C7_summary_block ("$".data) (some ⟨.percentage, 10⟩)
      (computeTotals [⟨"A".data, .num (.fin 10), .num (.fin 10)⟩]
        (some ⟨.percentage, 10⟩) (2 / 25) 0) (2 / 25) 0
      (fun h => Option.noConfusion h)).2.2.2.2.2.1⟩

example : jToFixed2 (.fin (36 / 5)) = "7.20".data := by with_unfolding_all decide

example : wrapText ("hello world".data) 5 = ["hello".data, "world".data] := by with_unfolding_all decide

example : ruleEq.length = 32 ∧ ruleDash.length = 32 ∧
    ("QTY  ITEM                  TOTAL".data).length = 32 := by with_unfolding_all decide

end Receipts
